import Mathlib

/-!
Verification of the PDF retrieval backend (`backend/main.py`).

Python strings are sequences of unicode code points; we embed them as
`List Char` (`Str`).  External services (pypdf page extraction, the OpenAI
embedding client, the qdrant vector store) are modelled as oracles supplied
in an environment record; each outgoing call is recorded in a trace, and a
call that raises is modelled with `Except`-style error propagation, matching
Python exception flow.  Python numbers: `len` is `List.length`; slicing
`s[:2000]` is `List.take 2000`.
-/

/-- A Python string, embedded as its list of characters. -/
abbrev Str := List Char

/-- Decimal rendering of a natural number, as used by the f-string
`f"--- Page \x7bi+1\x7d ---"`. -/
def natStr (n : Nat) : Str := (Nat.repr n).toList

/-- `str.strip()` is falsy iff every character is whitespace
(`not text.strip()` in `upload_pdf`). -/
def isBlank (s : Str) : Bool := s.all Char.isWhitespace

/- ## Text extraction (`upload_pdf`, lines 104-108)

```python
text = ""
for i, page in enumerate(reader.pages):
    page_text = page.extract_text()
    if page_text:
        text += f"\n--- Page \x7bi+1\x7d ---\n" + page_text + "\n"
```

A page is modelled by the string `page.extract_text()` returns; `None`
(absent text) and `""` are both falsy in Python, so both are modelled as
the empty string. -/

/-- The page marker `--- Page n ---` (without the surrounding newlines). -/
def pageMarker (n : Nat) : Str := ("--- Page ").toList ++ natStr n ++ (" ---").toList

/-- What one page with truthy extracted text contributes:
`"\n--- Page \x7bi+1\x7d ---\n" + page_text + "\n"` (0-based loop index `i`). -/
def pageChunk (i : Nat) (pt : Str) : Str :=
  ['\n'] ++ pageMarker (i + 1) ++ ['\n'] ++ pt ++ ['\n']

/-- The extraction loop of `upload_pdf`: fold over the enumerated pages,
appending `pageChunk` only when the page text is truthy. -/
def extract_text (pages : List Str) : Str :=
  pages.enum.foldl (fun text ip => if ip.2 = [] then text else text ++ pageChunk ip.1 ip.2) []

/-- Page-wise form of the extraction output: each page with truthy text
contributes `pageChunk`, a page with empty/absent text contributes
nothing at all (not even its marker).  `i` is the index of the first page. -/
def extractPagewise : Nat → List Str → Str
  | _, [] => []
  | i, pt :: rest => (if pt = [] then [] else pageChunk i pt) ++ extractPagewise (i + 1) rest

/-- Whether `needle` occurs as a contiguous substring of `hay`. -/
def hasSub (needle : Str) : Str → Bool
  | [] => needle.isEmpty
  | c :: t => (needle == (c :: t).take needle.length) || hasSub needle t

theorem extract_text_foldl_general (pages : List Str) :
    ∀ (i : Nat) (acc : Str),
      (pages.enumFrom i).foldl
        (fun text ip => if ip.2 = [] then text else text ++ pageChunk ip.1 ip.2) acc
      = acc ++ extractPagewise i pages := by
  induction pages with
  | nil => intro i acc; simp [extractPagewise]
  | cons pt rest ih =>
      intro i acc
      rw [List.enumFrom_cons, List.foldl_cons, ih, extractPagewise]
      by_cases h : pt = [] <;> simp [h, List.append_assoc]

theorem extract_text_eq_pagewise (pages : List Str) :
    extract_text pages = extractPagewise 0 pages := by
  have h := extract_text_foldl_general pages 0 []
  simpa [extract_text, List.enum] using h

theorem extractPagewise_append_empty (pages : List Str) (i : Nat) :
    extractPagewise i (pages ++ [[]]) = extractPagewise i pages := by
  induction pages generalizing i with
  | nil => simp [extractPagewise]
  | cons pt rest ih => simp [extractPagewise, ih]

/- ## Batching

Both loops `for i in range(0, len(xs), B): batch = xs[i : i + B]` walk the
list in consecutive slices of at most `B` elements; `batchesOf B xs` is that
list of slices. -/

/-- Worker for `batchesOf`: structural recursion on a fuel argument, so
that the function reduces inside the kernel.  With `l.length ≤ fuel` and
`0 < n` the fuel never runs out. -/
def batchesOfAux (n : Nat) : Nat → List α → List (List α)
  | _, [] => []
  | 0, _ :: _ => []
  | fuel + 1, x :: xs =>
    if n = 0 then []
    else (x :: xs).take n :: batchesOfAux n fuel ((x :: xs).drop n)

/-- The consecutive batches `xs[0:n], xs[n:2n], ...` of a list. -/
def batchesOf (n : Nat) (l : List α) : List (List α) := batchesOfAux n l.length l

theorem batchesOfAux_fuel_irrel (n : Nat) :
    ∀ (f1 : Nat) (l : List α), l.length ≤ f1 → ∀ (f2 : Nat), l.length ≤ f2 →
      batchesOfAux n f1 l = batchesOfAux n f2 l := by
  intro f1
  induction f1 with
  | zero =>
      intro l hl f2 _
      have : l = [] := List.length_eq_zero.mp (Nat.le_zero.mp hl)
      subst this
      cases f2 <;> rfl
  | succ f ih =>
      intro l hl f2 h2
      cases l with
      | nil => cases f2 <;> rfl
      | cons x xs =>
          cases f2 with
          | zero => simp at h2
          | succ f2 =>
              simp only [batchesOfAux]
              by_cases hn : n = 0
              · simp [hn]
              · rw [if_neg hn, if_neg hn,
                  ih ((x :: xs).drop n)
                    (by simp only [List.length_drop, List.length_cons]
                        simp only [List.length_cons] at hl
                        omega)
                    f2
                    (by simp only [List.length_drop, List.length_cons]
                        simp only [List.length_cons] at h2
                        omega)]

theorem batchesOf_cons_eq (n : Nat) (hn : 0 < n) (x : α) (xs : List α) :
    batchesOf n (x :: xs) = (x :: xs).take n :: batchesOf n ((x :: xs).drop n) := by
  rw [batchesOf, List.length_cons, batchesOfAux, if_neg (Nat.pos_iff_ne_zero.mp hn)]
  rw [batchesOf, batchesOfAux_fuel_irrel n xs.length ((x :: xs).drop n)
    (by simp only [List.length_drop, List.length_cons]; omega)
    ((x :: xs).drop n).length le_rfl]

theorem batchesOf_flatten (n : Nat) (hn : 0 < n) (l : List α) :
    (batchesOf n l).flatten = l := by
  suffices H : ∀ (k : Nat) (l : List α), l.length ≤ k → (batchesOf n l).flatten = l by
    exact H l.length l le_rfl
  intro k
  induction k with
  | zero =>
      intro l hl
      have : l = [] := List.length_eq_zero.mp (Nat.le_zero.mp hl)
      subst this
      rfl
  | succ k ih =>
      intro l hl
      match l with
      | [] => rfl
      | x :: xs =>
          rw [batchesOf_cons_eq n hn, List.flatten_cons, ih ((x :: xs).drop n)
            (by simp only [List.length_drop, List.length_cons]
                simp only [List.length_cons] at hl
                omega)]
          exact List.take_append_drop n (x :: xs)

theorem batchesOf_mem_length_le (n : Nat) (l : List α) :
    ∀ b ∈ batchesOf n l, b.length ≤ n := by
  suffices H : ∀ (k : Nat) (l : List α), l.length ≤ k → ∀ b ∈ batchesOf n l, b.length ≤ n by
    exact H l.length l le_rfl
  intro k
  induction k with
  | zero =>
      intro l hl
      have : l = [] := List.length_eq_zero.mp (Nat.le_zero.mp hl)
      subst this
      intro b hb
      exact absurd hb (List.not_mem_nil b)
  | succ k ih =>
      intro l hl
      match l with
      | [] =>
          intro b hb
          exact absurd hb (List.not_mem_nil b)
      | x :: xs =>
          by_cases hn : n = 0
          · subst hn
            rw [batchesOf, List.length_cons, batchesOfAux, if_pos rfl]
            intro b hb
            exact absurd hb (List.not_mem_nil b)
          · rw [batchesOf_cons_eq n (Nat.pos_of_ne_zero hn)]
            intro b hb
            rcases List.mem_cons.mp hb with h | h
            · subst h
              simp only [List.length_take]
              exact Nat.min_le_left n (x :: xs).length
            · exact ih ((x :: xs).drop n)
                (by simp only [List.length_drop, List.length_cons]
                    simp only [List.length_cons] at hl
                    omega) b h

/- ## Ingestion pipeline (`upload_pdf`, lines 94-162)

External collaborators are oracles in `UploadEnv`:
`pages` stands for `PdfReader(...).pages` with each page's extracted text,
`split` for `splitter.split_text`, `embedFn` for the embedding provider's
per-text vector (type `V`), and `embedFailsAt`/`upsertFailsAt` give the
0-based index of the batch call, if any, at which the provider / store
raises.  The point `id` is a fresh `uuid4` in the code; it is never read
again, so it is omitted from the model.  Each outgoing call is recorded in
the trace when it is issued (also when it then raises). -/

/-- `MAX_FILE_SIZE = 10 * 1024 * 1024` (line 88). -/
def MAX_FILE_SIZE : Nat := 10 * 1024 * 1024

/-- `EMBED_BATCH_SIZE = 50` (line 91). -/
def EMBED_BATCH_SIZE : Nat := 50

/-- `UPSERT_BATCH_SIZE = 64` (line 92). -/
def UPSERT_BATCH_SIZE : Nat := 64

/-- A qdrant point as built in lines 134-142 (`uuid4` id omitted, never read). -/
structure Point (V : Type) where
  vector : V
  text : Str
  filename : Str
  chunk_index : Nat
  deriving DecidableEq, Repr

/-- One outgoing call of the ingestion pipeline. -/
inductive UEv (V : Type) where
  /-- `embeddings.embed_documents(batch)` (line 130). -/
  | embedCall (batch : List Str)
  /-- `qdrant.upsert(collection_name=..., points=batch)` (line 147). -/
  | upsertCall (batch : List (Point V))
  deriving DecidableEq, Repr

/-- The JSON body `upload_pdf` returns. -/
inductive UploadResp (V : Type) where
  /-- `{"status": "error", "message": ...}` -/
  | err (message : Str)
  /-- `{"status": "success", "chunks_stored": ..., "filename": ...,
  "text_length": ..., "pages_processed": ...}` -/
  | success (chunks_stored : Nat) (filename : Str) (text_length : Nat) (pages_processed : Nat)
  deriving DecidableEq, Repr

def oversizeMsg : Str := "File too large. Max allowed size is 10 MB.".toList

def noTextMsg : Str :=
  "No text extracted from PDF. Might be image-only or password-protected.".toList

def noChunksMsg : Str := "No chunks were created from the extracted text.".toList

/-- Prefix of the catch-all reply `f"Error processing PDF: \x7bstr(e)\x7d"` (line 162). -/
def uploadErrPrefix : Str := "Error processing PDF: ".toList

/-- The embedding loop (lines 127-131): call `embed_documents` per batch,
extend `vectors` with each result.  `k` is the index of the current batch
call; when `failsAt = some k` that call raises `errMsg` after being issued. -/
def embedBatches (embedFn : Str → V) (failsAt : Option Nat) (errMsg : Str) :
    List (List Str) → Nat → Except Str (List V) × List (UEv V)
  | [], _ => (.ok [], [])
  | b :: bs, k =>
    if failsAt = some k then (.error errMsg, [.embedCall b])
    else
      match embedBatches embedFn failsAt errMsg bs (k + 1) with
      | (.error m, tr) => (.error m, .embedCall b :: tr)
      | (.ok vs, tr) => (.ok (b.map embedFn ++ vs), .embedCall b :: tr)

/-- Point construction (lines 134-142):
`for idx, (chunk, vector) in enumerate(zip(chunks, vectors))`. -/
def buildPoints (chunks : List Str) (vectors : List V) (fname : Str) : List (Point V) :=
  (chunks.zip vectors).enum.map (fun p => ⟨p.2.2, p.2.1, fname, p.1⟩)

/-- The upsert loop (lines 145-147): one `qdrant.upsert` call per batch;
when `failsAt = some k` the `k`-th call raises `errMsg` after being issued. -/
def upsertBatches (failsAt : Option Nat) (errMsg : Str) :
    List (List (Point V)) → Nat → Except Str Unit × List (UEv V)
  | [], _ => (.ok (), [])
  | b :: bs, k =>
    if failsAt = some k then (.error errMsg, [.upsertCall b])
    else
      match upsertBatches failsAt errMsg bs (k + 1) with
      | (.error m, tr) => (.error m, .upsertCall b :: tr)
      | (.ok (), tr) => (.ok (), .upsertCall b :: tr)

/-- Environment of one `upload_pdf` request: the request data plus the
behaviour of the external services during this request. -/
structure UploadEnv (V : Type) where
  /-- `len(contents)` of the uploaded file body. -/
  contentsLen : Nat
  /-- `page.extract_text()` for each page of `reader.pages`
  (`None`/empty text modelled as `[]`). -/
  pages : List Str
  /-- `splitter.split_text` (the configured `RecursiveCharacterTextSplitter`). -/
  split : Str → List Str
  /-- The embedding the provider returns for one text. -/
  embedFn : Str → V
  /-- Index of the `embed_documents` call that raises, if any. -/
  embedFailsAt : Option Nat
  /-- `str(e)` of that embedding exception. -/
  embedErrMsg : Str
  /-- Index of the `qdrant.upsert` call that raises, if any. -/
  upsertFailsAt : Option Nat
  /-- `str(e)` of that upsert exception. -/
  upsertErrMsg : Str
  /-- `file.filename`. -/
  filename : Str

/-- `upload_pdf` after the size check passed (lines 101-158). -/
def uploadAfterSizeCheck (env : UploadEnv V) : UploadResp V × List (UEv V) :=
  let text := extract_text env.pages
  if isBlank text then (.err noTextMsg, [])
  else
    let chunks := env.split text
    if chunks = [] then (.err noChunksMsg, [])
    else
      match embedBatches env.embedFn env.embedFailsAt env.embedErrMsg
        (batchesOf EMBED_BATCH_SIZE chunks) 0 with
      | (.error m, tr) => (.err (uploadErrPrefix ++ m), tr)
      | (.ok vectors, trE) =>
        let points := buildPoints chunks vectors env.filename
        match upsertBatches env.upsertFailsAt env.upsertErrMsg
          (batchesOf UPSERT_BATCH_SIZE points) 0 with
        | (.error m, trU) => (.err (uploadErrPrefix ++ m), trE ++ trU)
        | (.ok (), trU) =>
          (.success points.length env.filename text.length env.pages.length, trE ++ trU)

/-- The `/upload-pdf` endpoint: returns the JSON body and the trace of
calls issued to the embedding provider and the vector store. -/
def upload_pdf (env : UploadEnv V) : UploadResp V × List (UEv V) :=
  if MAX_FILE_SIZE < env.contentsLen then (.err oversizeMsg, [])
  else uploadAfterSizeCheck env

/- ## Query pipeline (`ask_question`, lines 165-201)

The embedding of the question is only passed on to the opaque
`qdrant.search` call, whose reply is the oracle `searchResults` (the
`payload.get("text", "")` of each hit, `none` when the payload has no
`"text"` key); so the vector type does not appear in this model.  The
`score_threshold=0.1` argument is recorded exactly as the rational
1/10, represented by the numerator/denominator pair `(1, 10)`. -/

/-- One outgoing call of the query pipeline. -/
inductive AEv where
  /-- `embeddings.embed_query(query.question)` (line 175). -/
  | embedQueryCall (question : Str)
  /-- `qdrant.search(..., limit=..., score_threshold=num/den,
  query_filter=Filter(must=[FieldCondition(key="filename",
  match=MatchValue(value=fname))]))` (lines 178-186). -/
  | searchCall (limit : Nat) (scoreThresholdNum : Nat) (scoreThresholdDen : Nat) (fname : Str)
  deriving DecidableEq, Repr

/-- The JSON body `ask_question` returns. -/
inductive AskResp where
  /-- `{"answer": ..., "sources_found": ...}` (no context length). -/
  | noCtx (answer : Str) (sources_found : Nat)
  /-- `{"answer": ..., "sources_found": ..., "context_length": ...}` -/
  | withCtx (answer : Str) (sources_found : Nat) (context_length : Nat)
  /-- `{"status": "error", "message": ...}` from the catch-all (line 201). -/
  | errResp (message : Str)
  deriving DecidableEq, Repr

def guidanceMsg : Str :=
  "No PDF filename provided. Upload a PDF first (frontend should pass filename).".toList

def noInfoMsg : Str := "No relevant information found in that PDF.".toList

/-- Prefix of the catch-all reply `f"Error processing query: \x7bstr(e)\x7d"`. -/
def askErrPrefix : Str := "Error processing query: ".toList

/-- `"Based on the PDF content, here's what I found:\n\n"`, the fixed text
the f-string on line 195 puts before the retrieved context. -/
def answerPreamble : Str :=
  "Based on the PDF content, here\x27s what I found:\n\n".toList

/-- `context = "\n\n".join(context_parts)` (line 193). -/
def mkContext (context_parts : List Str) : Str :=
  List.intercalate ['\n', '\n'] context_parts

/-- The full answer string (line 195):
`f"Based on the PDF content, here's what I found:\n\n\x7bcontext[:2000]\x7d\x7b'...' if len(context) > 2000 else ''\x7d"`. -/
def mkAnswer (context : Str) : Str :=
  answerPreamble ++ context.take 2000 ++ (if 2000 < context.length then "...".toList else [])

/-- Environment of one `/ask` request. -/
structure AskEnv where
  /-- `query.question`. -/
  question : Str
  /-- `query.filename` (`Optional[str]`, default `None`). -/
  filename : Option Str
  /-- Whether `embed_query` raises. -/
  embedFails : Bool
  /-- `str(e)` of that exception. -/
  embedErrMsg : Str
  /-- Whether `qdrant.search` raises. -/
  searchFails : Bool
  /-- `str(e)` of that exception. -/
  searchErrMsg : Str
  /-- The hits `qdrant.search` returns: each hit's `payload.get("text", "")`
  argument, i.e. `some t` when the payload holds text `t`, `none` when the
  `"text"` key is absent (the code then uses `""`). -/
  searchResults : List (Option Str)
  deriving DecidableEq, Repr

/-- The `/ask` endpoint: returns the JSON body and the trace of calls
issued to the embedding provider and the vector store. -/
def ask_question (env : AskEnv) : AskResp × List AEv :=
  match env.filename with
  | none => (.noCtx guidanceMsg 0, [])
  | some f =>
    if f = [] then (.noCtx guidanceMsg 0, [])
    else if env.embedFails then
      (.errResp (askErrPrefix ++ env.embedErrMsg), [.embedQueryCall env.question])
    else if env.searchFails then
      (.errResp (askErrPrefix ++ env.searchErrMsg),
        [.embedQueryCall env.question, .searchCall 5 1 10 f])
    else
      let tr := [AEv.embedQueryCall env.question, AEv.searchCall 5 1 10 f]
      if env.searchResults = [] then (.noCtx noInfoMsg 0, tr)
      else
        let context_parts := env.searchResults.map (fun h => h.getD [])
        let context := mkContext context_parts
        (.withCtx (mkAnswer context) env.searchResults.length context.length, tr)

/- ## Vector-store schema management
(`ensure_collection`, lines 37-63, and `/clear-collection`, lines 223-243)

The qdrant calls either return or raise, controlled by the `QEnv` flags;
`try`/`except` blocks are `tryCatch` in an exception monad over a trace of
issued calls.  A call is recorded when it is issued (also when it then
raises); `warnIndex` records the `print("Warning creating payload index:",
e)` of the inner `except`, `logErrEnsure` the `print("Error ensuring
collection:", e)` of `ensure_collection`'s outer `except`. -/

/-- A qdrant schema call, or a console log. -/
inductive QEv where
  | deleteCollection
  | createCollection
  | createIndex
  | warnIndex
  | logErrEnsure
  deriving DecidableEq, Repr

/-- Behaviour of the qdrant service during one schema operation. -/
structure QEnv where
  /-- What `qdrant.collection_exists(COLLECTION_NAME)` returns. -/
  collectionExists : Bool
  /-- Whether `qdrant.delete_collection` raises. -/
  deleteFails : Bool
  /-- Whether `qdrant.create_collection` raises. -/
  createFails : Bool
  /-- Whether `qdrant.create_payload_index` raises. -/
  indexFails : Bool
  deriving DecidableEq, Repr

def deleteErrMsg : Str := "delete_collection failed".toList

def createErrMsg : Str := "create_collection failed".toList

def indexErrMsg : Str := "create_payload_index failed".toList

/-- Exception monad over the trace of issued qdrant calls. -/
abbrev QProc := ExceptT Str (StateM (List QEv))

/-- Issue one qdrant call: record it, then raise `msg` if it fails. -/
def qcall (ev : QEv) (fails : Bool) (msg : Str) : QProc Unit := do
  modify (fun tr => tr ++ [ev])
  if fails then throw msg else pure ()

/-- Body of `ensure_collection` (lines 38-59): delete if present, create the
collection, then create the payload index inside its own `try`/`except`
that only logs a warning. -/
def ensureCollectionBody (env : QEnv) : QProc Unit := do
  if env.collectionExists then
    qcall .deleteCollection env.deleteFails deleteErrMsg
  qcall .createCollection env.createFails createErrMsg
  tryCatch (qcall .createIndex env.indexFails indexErrMsg)
    (fun _ => modify (fun tr => tr ++ [QEv.warnIndex]))

/-- `ensure_collection()` (run once at startup): the outer `try`/`except`
only logs, so the function returns normally in every case; the result is
the trace. -/
def ensure_collection (env : QEnv) : List QEv :=
  (((tryCatch (ensureCollectionBody env)
      (fun _ => modify (fun tr => tr ++ [QEv.logErrEnsure]))).run).run []).2

/-- The JSON body `/clear-collection` returns. -/
inductive ClearResp where
  /-- `{"status": "success", "message": ...}` -/
  | success (message : Str)
  /-- `{"status": "error", "message": ...}` -/
  | error (message : Str)
  deriving DecidableEq, Repr

def clearSuccessMsg : Str := "Collection cleared and recreated with index.".toList

/-- Prefix of `f"Error clearing collection: \x7bstr(e)\x7d"` (line 243). -/
def clearErrPrefix : Str := "Error clearing collection: ".toList

/-- The `/clear-collection` endpoint (lines 223-243): delete if present,
create the collection, create the payload index — all three directly inside
the endpoint's single `try`, whose `except` returns the error body. -/
def clear_collection (env : QEnv) : ClearResp × List QEv :=
  let body : QProc ClearResp := do
    if env.collectionExists then
      qcall .deleteCollection env.deleteFails deleteErrMsg
    qcall .createCollection env.createFails createErrMsg
    qcall .createIndex env.indexFails indexErrMsg
    pure (.success clearSuccessMsg)
  let r := (((tryCatch body (fun m => pure (.error (clearErrPrefix ++ m)))).run).run [])
  match r.1 with
  | .ok resp => (resp, r.2)
  | .error m => (.error (clearErrPrefix ++ m), r.2)

/- ## Supporting lemmas about the ingestion loops -/

theorem embedBatches_none (embedFn : Str → V) (errMsg : Str) :
    ∀ (bs : List (List Str)) (k : Nat),
      embedBatches embedFn none errMsg bs k =
        (.ok (bs.flatten.map embedFn), bs.map UEv.embedCall) := by
  intro bs
  induction bs with
  | nil => intro k; rfl
  | cons b rest ih =>
      intro k
      simp only [embedBatches, ih (k + 1), List.flatten_cons, List.map_append, List.map_cons]
      rfl

theorem embedBatches_ok_shape (embedFn : Str → V) (failsAt : Option Nat) (errMsg : Str) :
    ∀ (bs : List (List Str)) (k : Nat) (vs : List V) (tr : List (UEv V)),
      embedBatches embedFn failsAt errMsg bs k = (.ok vs, tr) →
      vs = bs.flatten.map embedFn ∧ tr = bs.map UEv.embedCall := by
  intro bs
  induction bs with
  | nil =>
      intro k vs tr h
      simp only [embedBatches, Prod.mk.injEq, Except.ok.injEq] at h
      obtain ⟨h1, h2⟩ := h
      exact ⟨h1.symm, h2.symm⟩
  | cons b rest ih =>
      intro k vs tr h
      rw [embedBatches] at h
      by_cases hf : failsAt = some k
      · rw [if_pos hf] at h
        simp at h
      · rw [if_neg hf] at h
        rcases hrec : embedBatches embedFn failsAt errMsg rest (k + 1) with ⟨r, trr⟩
        rw [hrec] at h
        cases r with
        | error m => simp at h
        | ok vsr =>
            simp only [Prod.mk.injEq, Except.ok.injEq] at h
            obtain ⟨h1, h2⟩ := h
            obtain ⟨hv, ht⟩ := ih (k + 1) vsr trr hrec
            subst hv ht h1 h2
            simp [List.flatten_cons, List.map_append]

theorem embedBatches_fails (embedFn : Str → V) (errMsg : Str) (k0 : Nat) :
    ∀ (bs : List (List Str)) (k : Nat), k ≤ k0 → k0 < k + bs.length →
      (embedBatches embedFn (some k0) errMsg bs k).1 = Except.error errMsg := by
  intro bs
  induction bs with
  | nil => intro k h1 h2; simp at h2; omega
  | cons b rest ih =>
      intro k h1 h2
      rw [embedBatches]
      by_cases hf : k0 = k
      · rw [if_pos (by rw [hf])]
      · rw [if_neg (by simp; omega)]
        have hrec := ih (k + 1) (by omega) (by simp at h2 ⊢; omega)
        rcases hr : embedBatches embedFn (some k0) errMsg rest (k + 1) with ⟨r, trr⟩
        rw [hr] at hrec
        simp only at hrec
        subst hrec
        rfl

theorem embedBatches_trace_no_upsert (embedFn : Str → V) (failsAt : Option Nat) (errMsg : Str) :
    ∀ (bs : List (List Str)) (k : Nat) (b : List (Point V)),
      UEv.upsertCall b ∉ (embedBatches embedFn failsAt errMsg bs k).2 := by
  intro bs
  induction bs with
  | nil => intro k b; simp [embedBatches]
  | cons bb rest ih =>
      intro k b
      rw [embedBatches]
      by_cases hf : failsAt = some k
      · rw [if_pos hf]; simp
      · rw [if_neg hf]
        rcases hr : embedBatches embedFn failsAt errMsg rest (k + 1) with ⟨r, trr⟩
        have := ih (k + 1) b
        rw [hr] at this
        cases r <;> simp_all

theorem upsertBatches_none (errMsg : Str) :
    ∀ (bs : List (List (Point V))) (k : Nat),
      upsertBatches none errMsg bs k = (.ok (), bs.map UEv.upsertCall) := by
  intro bs
  induction bs with
  | nil => intro k; rfl
  | cons b rest ih =>
      intro k
      simp only [upsertBatches, ih (k + 1), List.map_cons]
      rfl

theorem upsertBatches_ok_shape (failsAt : Option Nat) (errMsg : Str) :
    ∀ (bs : List (List (Point V))) (k : Nat) (tr : List (UEv V)),
      upsertBatches failsAt errMsg bs k = (.ok (), tr) →
      tr = bs.map UEv.upsertCall := by
  intro bs
  induction bs with
  | nil =>
      intro k tr h
      simp only [upsertBatches, Prod.mk.injEq] at h
      exact h.2.symm
  | cons b rest ih =>
      intro k tr h
      rw [upsertBatches] at h
      by_cases hf : failsAt = some k
      · rw [if_pos hf] at h
        simp at h
      · rw [if_neg hf] at h
        rcases hrec : upsertBatches (V := V) failsAt errMsg rest (k + 1) with ⟨r, trr⟩
        rw [hrec] at h
        cases r with
        | error m => simp at h
        | ok u =>
            cases u
            simp only [Prod.mk.injEq] at h
            obtain ⟨-, h2⟩ := h
            subst h2
            rw [ih (k + 1) trr hrec]
            rfl

/- ## Supporting lemmas about point construction and the trace -/

theorem buildPoints_length (chunks : List Str) (vectors : List V) (fname : Str) :
    (buildPoints chunks vectors fname).length = min chunks.length vectors.length := by
  simp [buildPoints, List.enum_length, List.length_zip]

theorem buildPoints_map_chunk_index (chunks : List Str) (vectors : List V) (fname : Str) :
    (buildPoints chunks vectors fname).map Point.chunk_index =
      List.range (chunks.zip vectors).length := by
  unfold buildPoints
  rw [List.map_map]
  have h : (Point.chunk_index ∘ fun p : Nat × (Str × V) =>
      (⟨p.2.2, p.2.1, fname, p.1⟩ : Point V)) = Prod.fst := rfl
  rw [h, List.enum_map_fst]

theorem buildPoints_map_text (chunks : List Str) (vectors : List V) (fname : Str)
    (h : chunks.length ≤ vectors.length) :
    (buildPoints chunks vectors fname).map Point.text = chunks := by
  unfold buildPoints
  rw [List.map_map]
  have he : (Point.text ∘ fun p : Nat × (Str × V) =>
      (⟨p.2.2, p.2.1, fname, p.1⟩ : Point V)) = Prod.fst ∘ Prod.snd := rfl
  rw [he, ← List.map_map, List.enum_map_snd, List.map_fst_zip _ _ h]

theorem buildPoints_map_vector (chunks : List Str) (vectors : List V) (fname : Str)
    (h : vectors.length ≤ chunks.length) :
    (buildPoints chunks vectors fname).map Point.vector = vectors := by
  unfold buildPoints
  rw [List.map_map]
  have he : (Point.vector ∘ fun p : Nat × (Str × V) =>
      (⟨p.2.2, p.2.1, fname, p.1⟩ : Point V)) = Prod.snd ∘ Prod.snd := rfl
  rw [he, ← List.map_map, List.enum_map_snd, List.map_snd_zip _ _ h]

/-- The records written to the vector store during a request: the
concatenation of the point batches of all issued upsert calls. -/
def storedPoints : List (UEv V) → List (Point V)
  | [] => []
  | UEv.embedCall _ :: tr => storedPoints tr
  | UEv.upsertCall b :: tr => b ++ storedPoints tr

theorem storedPoints_append (l1 l2 : List (UEv V)) :
    storedPoints (l1 ++ l2) = storedPoints l1 ++ storedPoints l2 := by
  induction l1 with
  | nil => rfl
  | cons ev rest ih => cases ev <;> simp [storedPoints, ih]

theorem storedPoints_map_embedCall (bs : List (List Str)) :
    storedPoints (V := V) (bs.map UEv.embedCall) = [] := by
  induction bs with
  | nil => rfl
  | cons b rest ih => simpa [storedPoints] using ih

theorem storedPoints_map_upsertCall (bs : List (List (Point V))) :
    storedPoints (bs.map UEv.upsertCall) = bs.flatten := by
  induction bs with
  | nil => rfl
  | cons b rest ih => simp [storedPoints, ih]

/-- `bs.all (len ≤ n)`: every batch in `bs` holds at most `n` elements. -/
def allAtMost (n : Nat) (bs : List (List α)) : Bool := bs.all (fun b => b.length ≤ n)

theorem batchesOf_allAtMost (n : Nat) (l : List α) :
    allAtMost n (batchesOf n l) = true := by
  rw [allAtMost, List.all_eq_true]
  intro b hb
  rw [decide_eq_true_eq]
  exact batchesOf_mem_length_le n l b hb

/-- Whether an ingestion-trace event is a `qdrant.upsert` call. -/
def isUpsertCall : UEv V → Bool
  | .upsertCall _ => true
  | .embedCall _ => false

/- ## The claims -/

/-- C1, counterexample: the claim says a page whose extraction yields empty
text still contributes its `--- Page n ---` marker.  On a one-page document
whose page text is empty, the code produces the empty string, which does not
contain the page-1 marker at all. -/
theorem claim1_empty_page_no_marker :
    extract_text [[]] = [] ∧ hasSub (pageMarker 1) (extract_text [[]]) = false := by
  decide

/-- C1, amended: the extracted text is the concatenation, over the pages in
order, of the contribution of each page, where a page with truthy extracted
text contributes `"\n--- Page \x7bn\x7d ---\n"` followed by the page text and a
trailing newline, and a page whose extraction yields empty or absent text
contributes nothing at all — not even its marker (appending such a page
leaves the output unchanged). -/
theorem claim1_extraction_skips_empty_pages :
    (∀ pages : List Str, extract_text pages = extractPagewise 0 pages) ∧
    (∀ pages : List Str, extract_text (pages ++ [[]]) = extract_text pages) := by
  constructor
  · exact extract_text_eq_pagewise
  · intro pages
    rw [extract_text_eq_pagewise, extract_text_eq_pagewise, extractPagewise_append_empty]

/-- The `context` the query pipeline retrieves for the current request:
`"\n\n".join(hit.payload.get("text", "") for hit in search_result)`. -/
def retrievedContext (env : AskEnv) : Str :=
  mkContext (env.searchResults.map (fun h => h.getD []))

/-- A query environment with one hit whose payload text is `"a"`. -/
def envOneHit : AskEnv :=
  { question := [], filename := some ['f'], embedFails := false, embedErrMsg := [],
    searchFails := false, searchErrMsg := [], searchResults := [some ['a']] }

/-- C2, counterexample: the claim says the returned answer is exactly the
concatenated chunk texts, returned verbatim when within 2000 characters.
With a single retrieved chunk `"a"` the code returns the fixed preamble
`"Based on the PDF content, here's what I found:\n\n"` followed by `"a"`,
which differs from the bare concatenation `"a"`. -/
theorem claim2_answer_not_verbatim :
    (ask_question envOneHit).1 = AskResp.withCtx (answerPreamble ++ ['a']) 1 1 ∧
    answerPreamble ++ ['a'] ≠ ['a'] := by
  decide

/-- C2, amended: for every query with a non-empty filename whose filtered
search returns at least one result, the returned answer is the fixed
preamble `"Based on the PDF content, here's what I found:\n\n"` followed by
the retrieved chunk texts concatenated with blank-line separators, that
concatenation being truncated to its first 2000 characters with an appended
`"..."` when it exceeds 2000 characters and kept unmodified otherwise; the
response also carries the count of sources and the untruncated combined
length. -/
theorem claim2_answer_preamble_truncation (env : AskEnv) (f : Str)
    (hf : env.filename = some f) (hne : f ≠ [])
    (hE : env.embedFails = false) (hS : env.searchFails = false)
    (hres : env.searchResults ≠ []) :
    (ask_question env).1 =
      AskResp.withCtx (mkAnswer (retrievedContext env)) env.searchResults.length
        (retrievedContext env).length ∧
    ((retrievedContext env).length ≤ 2000 →
      mkAnswer (retrievedContext env) = answerPreamble ++ retrievedContext env) ∧
    (2000 < (retrievedContext env).length →
      mkAnswer (retrievedContext env) =
        answerPreamble ++ (retrievedContext env).take 2000 ++ ("...").toList ∧
      ((retrievedContext env).take 2000).length = 2000) := by
  refine ⟨?_, ?_, ?_⟩
  · simp [ask_question, hf, hne, hE, hS, hres, retrievedContext]
  · intro h
    rw [mkAnswer, List.take_of_length_le h, if_neg (by omega), List.append_nil]
  · intro h
    constructor
    · rw [mkAnswer, if_pos h]
    · rw [List.length_take]
      exact Nat.min_eq_left (Nat.le_of_lt h)

/-- C2, witness: the amended statement at the concrete one-hit environment. -/
theorem claim2_answer_preamble_truncation_inst :
    (ask_question envOneHit).1 =
      AskResp.withCtx (mkAnswer (retrievedContext envOneHit)) envOneHit.searchResults.length
        (retrievedContext envOneHit).length ∧
    ((retrievedContext envOneHit).length ≤ 2000 →
      mkAnswer (retrievedContext envOneHit) = answerPreamble ++ retrievedContext envOneHit) ∧
    (2000 < (retrievedContext envOneHit).length →
      mkAnswer (retrievedContext envOneHit) =
        answerPreamble ++ (retrievedContext envOneHit).take 2000 ++ ("...").toList ∧
      ((retrievedContext envOneHit).take 2000).length = 2000) :=
  claim2_answer_preamble_truncation envOneHit ['f'] rfl (by decide) rfl rfl (by decide)

/-- C3, counterexample: the claim says that in the explicit maintenance
operation too, an index-creation failure does not abort and the operation
still reports success.  When only `create_payload_index` raises (collection
absent, delete/create fine), `/clear-collection` returns the error body,
not success. -/
theorem claim3_clear_collection_index_failure_errors :
    clear_collection ⟨false, false, false, true⟩ =
      (ClearResp.error (clearErrPrefix ++ indexErrMsg),
        [QEv.createCollection, QEv.createIndex]) := by
  decide

/-- C3, amended: when only the keyword-index creation fails, the startup
schema routine `ensure_collection` catches it in its inner `try`/`except`,
logs a warning and completes collection creation without raising; but the
explicit `/clear-collection` maintenance operation has no inner handler
there, so the same failure propagates to its catch-all and the operation
reports an error — although the collection itself has still been
(re)created before the index call raised. -/
theorem claim3_index_failure_tolerated_only_at_startup (env : QEnv)
    (hd : env.deleteFails = false) (hc : env.createFails = false)
    (hi : env.indexFails = true) :
    ensure_collection env =
      (if env.collectionExists then [QEv.deleteCollection] else []) ++
        [QEv.createCollection, QEv.createIndex, QEv.warnIndex] ∧
    clear_collection env =
      (ClearResp.error (clearErrPrefix ++ indexErrMsg),
        (if env.collectionExists then [QEv.deleteCollection] else []) ++
          [QEv.createCollection, QEv.createIndex]) := by
  rcases env with ⟨ce, df, cf, fi⟩
  simp only at hd hc hi
  subst hd hc hi
  cases ce <;> decide

/-- C3, witness: the amended statement with an existing collection. -/
theorem claim3_index_failure_tolerated_only_at_startup_inst :
    ensure_collection ⟨true, false, false, true⟩ =
      (if (QEnv.mk true false false true).collectionExists
        then [QEv.deleteCollection] else []) ++
        [QEv.createCollection, QEv.createIndex, QEv.warnIndex] ∧
    clear_collection ⟨true, false, false, true⟩ =
      (ClearResp.error (clearErrPrefix ++ indexErrMsg),
        (if (QEnv.mk true false false true).collectionExists
          then [QEv.deleteCollection] else []) ++
          [QEv.createCollection, QEv.createIndex]) :=
  claim3_index_failure_tolerated_only_at_startup ⟨true, false, false, true⟩ rfl rfl rfl

/-- C6: uploading a file whose byte length exceeds 10 MiB yields the
oversize error body and an empty call trace — zero embedding calls and zero
vector-store calls. -/
theorem claim6_oversize_rejected_no_calls {V : Type} (env : UploadEnv V)
    (h : MAX_FILE_SIZE < env.contentsLen) :
    upload_pdf env = (.err oversizeMsg, []) := by
  rw [upload_pdf, if_pos h]

/-- An upload environment whose file body is one byte over the limit. -/
def envOversize : UploadEnv Nat :=
  { contentsLen := 10 * 1024 * 1024 + 1, pages := [['a']], split := fun t => [t],
    embedFn := List.length, embedFailsAt := none, embedErrMsg := [],
    upsertFailsAt := none, upsertErrMsg := [], filename := ['f'] }

/-- C6, witness: the oversize rejection at a concrete 10 MiB + 1 upload. -/
theorem claim6_oversize_rejected_no_calls_inst :
    upload_pdf envOversize = (.err oversizeMsg, []) :=
  claim6_oversize_rejected_no_calls envOversize (by decide)

/-- C7: a query whose filename is absent (`None`) or empty returns the fixed
guidance message with `sources_found = 0`, and the call trace is empty — the
embedding provider and the vector store are never called. -/
theorem claim7_missing_filename_guidance (env : AskEnv)
    (h : env.filename = none ∨ env.filename = some []) :
    ask_question env = (.noCtx guidanceMsg 0, []) := by
  rcases h with h | h <;> simp [ask_question, h]

/-- A query environment with no filename. -/
def envNoFilename : AskEnv :=
  { question := ['q'], filename := none, embedFails := false, embedErrMsg := [],
    searchFails := false, searchErrMsg := [], searchResults := [] }

/-- C7, witness: the guidance response at a concrete filename-less query. -/
theorem claim7_missing_filename_guidance_inst :
    ask_question envNoFilename = (.noCtx guidanceMsg 0, []) :=
  claim7_missing_filename_guidance envNoFilename (Or.inl rfl)

/-- C9: whenever the query pipeline reaches the vector store (non-empty
filename, embedding succeeded), the single search call it issues carries
`limit=5`, `score_threshold=0.1` (the rational 1/10) and a filter requiring
`filename` to equal the supplied value exactly; and an empty search result
yields the normal `"No relevant information found in that PDF."` body with
`sources_found = 0`, not an error body. -/
theorem claim9_search_parameters (env : AskEnv) (f : Str)
    (hf : env.filename = some f) (hne : f ≠ []) (hE : env.embedFails = false) :
    (ask_question env).2 = [.embedQueryCall env.question, .searchCall 5 1 10 f] ∧
    (env.searchFails = false → env.searchResults = [] →
      (ask_question env).1 = AskResp.noCtx noInfoMsg 0) := by
  constructor
  · by_cases hS : env.searchFails
    · simp [ask_question, hf, hne, hE, hS]
    · by_cases hres : env.searchResults = [] <;>
        simp [ask_question, hf, hne, hE, hS, hres]
  · intro hS hres
    simp [ask_question, hf, hne, hE, hS, hres]

/-- A query environment whose filtered search returns no hit. -/
def envNoHits : AskEnv :=
  { question := ['q'], filename := some ['f'], embedFails := false, embedErrMsg := [],
    searchFails := false, searchErrMsg := [], searchResults := [] }

/-- C9, witness: the search parameters and empty-result body at a concrete
query. -/
theorem claim9_search_parameters_inst :
    (ask_question envNoHits).2 =
      [.embedQueryCall envNoHits.question, .searchCall 5 1 10 ['f']] ∧
    (envNoHits.searchFails = false → envNoHits.searchResults = [] →
      (ask_question envNoHits).1 = AskResp.noCtx noInfoMsg 0) :=
  claim9_search_parameters envNoHits ['f'] rfl (by decide) rfl

/-- C10: the size check is strict — an upload of exactly
`10 * 1024 * 1024` bytes is not rejected and proceeds past the size check
to extraction; any upload of at most `MAX_FILE_SIZE` bytes proceeds, and
only strictly larger uploads get the oversize error. -/
theorem claim10_size_check_strict {V : Type} (env : UploadEnv V) :
    (env.contentsLen = 10 * 1024 * 1024 → upload_pdf env = uploadAfterSizeCheck env) ∧
    (env.contentsLen ≤ MAX_FILE_SIZE → upload_pdf env = uploadAfterSizeCheck env) ∧
    (MAX_FILE_SIZE < env.contentsLen → upload_pdf env = (.err oversizeMsg, [])) := by
  refine ⟨?_, ?_, ?_⟩ <;> intro h
  · rw [upload_pdf, if_neg (by rw [h]; exact Nat.lt_irrefl _)]
  · rw [upload_pdf, if_neg (Nat.not_lt.mpr h)]
  · rw [upload_pdf, if_pos h]

/-- An upload environment whose file body is exactly 10 MiB. -/
def envExactSize : UploadEnv Nat :=
  { contentsLen := 10 * 1024 * 1024, pages := [['a']], split := fun t => [t],
    embedFn := List.length, embedFailsAt := none, embedErrMsg := [],
    upsertFailsAt := none, upsertErrMsg := [], filename := ['f'] }

/-- C10, witness: the exactly-10-MiB upload proceeds past the size check. -/
theorem claim10_size_check_strict_inst :
    upload_pdf envExactSize = uploadAfterSizeCheck envExactSize :=
  (claim10_size_check_strict envExactSize).1 rfl

/-- C4: when an embedding batch call raises while there is at least one
batch to embed (the pipeline reached embedding: size ok, extractable text,
non-empty chunk list, and the failing batch index is within range), the
whole ingestion returns the generic error body carrying the exception text,
and the trace holds no `qdrant.upsert` call at all — the vector store is
untouched for this document, because every upsert happens only after all
embedding batches have succeeded. -/
theorem claim4_embed_failure_aborts_without_upsert {V : Type} (env : UploadEnv V) (k : Nat)
    (hsize : env.contentsLen ≤ MAX_FILE_SIZE)
    (hblank : isBlank (extract_text env.pages) = false)
    (hchunks : env.split (extract_text env.pages) ≠ [])
    (hfail : env.embedFailsAt = some k)
    (hk : k < (batchesOf EMBED_BATCH_SIZE (env.split (extract_text env.pages))).length) :
    (upload_pdf env).1 = .err (uploadErrPrefix ++ env.embedErrMsg) ∧
    (upload_pdf env).2.filter isUpsertCall = [] := by
  rcases hE : embedBatches env.embedFn env.embedFailsAt env.embedErrMsg
      (batchesOf EMBED_BATCH_SIZE (env.split (extract_text env.pages))) 0 with ⟨r, tr⟩
  have hr : r = Except.error env.embedErrMsg := by
    have h2 := embedBatches_fails env.embedFn env.embedErrMsg k
      (batchesOf EMBED_BATCH_SIZE (env.split (extract_text env.pages))) 0
      (Nat.zero_le k) (by omega)
    rw [← hfail, hE] at h2
    exact h2
  subst hr
  have hup : upload_pdf env = (.err (uploadErrPrefix ++ env.embedErrMsg), tr) := by
    rw [upload_pdf, if_neg (Nat.not_lt.mpr hsize)]
    simp only [uploadAfterSizeCheck, hblank, hE]
    simp [hchunks]
  refine ⟨by rw [hup], ?_⟩
  rw [hup]
  rw [List.filter_eq_nil_iff]
  intro ev hev
  cases ev with
  | embedCall b => simp [isUpsertCall]
  | upsertCall b =>
      have hni := embedBatches_trace_no_upsert env.embedFn env.embedFailsAt env.embedErrMsg
        (batchesOf EMBED_BATCH_SIZE (env.split (extract_text env.pages))) 0 b
      rw [hE] at hni
      exact absurd hev hni

/-- An upload environment whose single embedding batch call raises. -/
def envEmbedFail : UploadEnv Nat :=
  { contentsLen := 1, pages := [['a']], split := fun t => [t],
    embedFn := List.length, embedFailsAt := some 0, embedErrMsg := ['b'],
    upsertFailsAt := none, upsertErrMsg := [], filename := ['f'] }

/-- C4, witness: the embedding-failure abort at a concrete one-chunk
upload. -/
theorem claim4_embed_failure_aborts_without_upsert_inst :
    (upload_pdf envEmbedFail).1 = .err (uploadErrPrefix ++ envEmbedFail.embedErrMsg) ∧
    (upload_pdf envEmbedFail).2.filter isUpsertCall = [] :=
  claim4_embed_failure_aborts_without_upsert envEmbedFail 0 (by decide) (by decide)
    (by decide) rfl (by decide)

/-- C5: a successful ingestion reports `chunks_stored` equal to the number
of chunk strings the splitter produced, and the records stored by the
issued upsert calls carry `chunk_index` values forming the 0-based
contiguous sequence `0, 1, ..., n-1` in split order. -/
theorem claim5_chunks_stored_and_indices {V : Type} (env : UploadEnv V)
    (n : Nat) (f : Str) (tl pp : Nat) (tr : List (UEv V))
    (h : upload_pdf env = (.success n f tl pp, tr)) :
    n = (env.split (extract_text env.pages)).length ∧
    (storedPoints tr).map Point.chunk_index = List.range n := by
  rw [upload_pdf] at h
  by_cases hsz : MAX_FILE_SIZE < env.contentsLen
  · rw [if_pos hsz] at h
    exact absurd h (by simp)
  · rw [if_neg hsz] at h
    rw [uploadAfterSizeCheck] at h
    by_cases hblank : isBlank (extract_text env.pages) = true
    · rw [if_pos hblank] at h
      exact absurd h (by simp)
    · rw [if_neg hblank] at h
      by_cases hchunks : env.split (extract_text env.pages) = []
      · rw [if_pos hchunks] at h
        exact absurd h (by simp)
      · rw [if_neg hchunks] at h
        rcases hE : embedBatches env.embedFn env.embedFailsAt env.embedErrMsg
            (batchesOf EMBED_BATCH_SIZE (env.split (extract_text env.pages))) 0 with ⟨rE, trE⟩
        rw [hE] at h
        cases rE with
        | error m => exact absurd h (by simp)
        | ok vectors =>
            dsimp only at h
            rcases hU : upsertBatches env.upsertFailsAt env.upsertErrMsg
                (batchesOf UPSERT_BATCH_SIZE (buildPoints
                  (env.split (extract_text env.pages)) vectors env.filename)) 0 with ⟨rU, trU⟩
            rw [hU] at h
            cases rU with
            | error m => exact absurd h (by simp)
            | ok u =>
                cases u
                dsimp only at h
                simp only [Prod.mk.injEq, UploadResp.success.injEq] at h
                obtain ⟨⟨hn, -, -, -⟩, htr⟩ := h
                obtain ⟨hvec, htrE⟩ := embedBatches_ok_shape env.embedFn env.embedFailsAt
                  env.embedErrMsg _ 0 vectors trE hE
                have htrU := upsertBatches_ok_shape env.upsertFailsAt env.upsertErrMsg _ 0 trU hU
                have hflat : (batchesOf EMBED_BATCH_SIZE
                    (env.split (extract_text env.pages))).flatten
                    = env.split (extract_text env.pages) :=
                  batchesOf_flatten EMBED_BATCH_SIZE (by decide) _
                have hveclen : vectors.length = (env.split (extract_text env.pages)).length := by
                  rw [hvec, List.length_map, hflat]
                have hplen : (buildPoints (env.split (extract_text env.pages)) vectors
                    env.filename).length = (env.split (extract_text env.pages)).length := by
                  rw [buildPoints_length, hveclen, Nat.min_self]
                constructor
                · rw [← hn, hplen]
                · rw [← htr, storedPoints_append, htrE, htrU,
                    storedPoints_map_embedCall, storedPoints_map_upsertCall,
                    batchesOf_flatten UPSERT_BATCH_SIZE (by decide),
                    List.nil_append, buildPoints_map_chunk_index, List.length_zip,
                    hveclen, Nat.min_self, ← hn, hplen]

/-- An upload environment for a clean one-chunk ingestion. -/
def envOk : UploadEnv Nat :=
  { contentsLen := 1, pages := [['a']], split := fun t => [t],
    embedFn := List.length, embedFailsAt := none, embedErrMsg := [],
    upsertFailsAt := none, upsertErrMsg := [], filename := ['f'] }

/-- C5, witness: the counts and indices at a concrete successful one-chunk
ingestion. -/
theorem claim5_chunks_stored_and_indices_inst :
    1 = (envOk.split (extract_text envOk.pages)).length ∧
    (storedPoints (upload_pdf envOk).2).map Point.chunk_index = List.range 1 :=
  claim5_chunks_stored_and_indices envOk 1 ['f'] 18 1 (upload_pdf envOk).2 (by decide)

/-- C8: in a clean ingestion, the pipeline issues `embed_documents` calls on
exactly the consecutive batches of at most 50 chunks (in split order,
together covering every chunk), pairs vector `i` with chunk `i` (the point
list maps `text` to the chunk list and `vector` to its image under the
embedding), and then issues `qdrant.upsert` calls on exactly the
consecutive batches of at most 64 points, together covering every point
exactly once. -/
theorem claim8_batching_structure {V : Type} (env : UploadEnv V)
    (chunks : List Str) (points : List (Point V))
    (hsize : env.contentsLen ≤ MAX_FILE_SIZE)
    (hblank : isBlank (extract_text env.pages) = false)
    (hchunksEq : chunks = env.split (extract_text env.pages))
    (hchunksNe : chunks ≠ [])
    (hpointsEq : points = buildPoints chunks (chunks.map env.embedFn) env.filename)
    (hEf : env.embedFailsAt = none)
    (hUf : env.upsertFailsAt = none) :
    (upload_pdf env).2 =
      (batchesOf EMBED_BATCH_SIZE chunks).map UEv.embedCall ++
        (batchesOf UPSERT_BATCH_SIZE points).map UEv.upsertCall ∧
    allAtMost EMBED_BATCH_SIZE (batchesOf EMBED_BATCH_SIZE chunks) = true ∧
    (batchesOf EMBED_BATCH_SIZE chunks).flatten = chunks ∧
    points.map Point.vector = chunks.map env.embedFn ∧
    points.map Point.text = chunks ∧
    allAtMost UPSERT_BATCH_SIZE (batchesOf UPSERT_BATCH_SIZE points) = true ∧
    (batchesOf UPSERT_BATCH_SIZE points).flatten = points := by
  subst hchunksEq
  have hflatE : (batchesOf EMBED_BATCH_SIZE (env.split (extract_text env.pages))).flatten
      = env.split (extract_text env.pages) :=
    batchesOf_flatten EMBED_BATCH_SIZE (by decide) _
  have hup : (upload_pdf env).2 =
      (batchesOf EMBED_BATCH_SIZE (env.split (extract_text env.pages))).map UEv.embedCall ++
        (batchesOf UPSERT_BATCH_SIZE points).map UEv.upsertCall := by
    rw [upload_pdf, if_neg (Nat.not_lt.mpr hsize)]
    simp [uploadAfterSizeCheck, hblank, hchunksNe, hEf, embedBatches_none, hUf,
      upsertBatches_none, hflatE, ← hpointsEq]
  refine ⟨hup, batchesOf_allAtMost _ _, hflatE, ?_, ?_,
    batchesOf_allAtMost _ _, batchesOf_flatten UPSERT_BATCH_SIZE (by decide) _⟩
  · rw [hpointsEq]
    exact buildPoints_map_vector _ _ _ (Nat.le_of_eq (List.length_map _ _))
  · rw [hpointsEq]
    exact buildPoints_map_text _ _ _ (Nat.le_of_eq (List.length_map _ _).symm)

/-- An upload environment whose splitter yields two chunks. -/
def envTwoChunks : UploadEnv Nat :=
  { contentsLen := 1, pages := [['a']], split := fun t => [t, t],
    embedFn := List.length, embedFailsAt := none, embedErrMsg := [],
    upsertFailsAt := none, upsertErrMsg := [], filename := ['f'] }

/-- The splitter output of the `envTwoChunks` ingestion. -/
def chunksTwo : List Str := envTwoChunks.split (extract_text envTwoChunks.pages)

/-- The points built for the `envTwoChunks` ingestion. -/
def pointsTwo : List (Point Nat) :=
  buildPoints chunksTwo (chunksTwo.map envTwoChunks.embedFn) envTwoChunks.filename

/-- C8, witness: the batching structure at a concrete two-chunk ingestion. -/
theorem claim8_batching_structure_inst :
    (upload_pdf envTwoChunks).2 =
      (batchesOf EMBED_BATCH_SIZE chunksTwo).map UEv.embedCall ++
        (batchesOf UPSERT_BATCH_SIZE pointsTwo).map UEv.upsertCall ∧
    allAtMost EMBED_BATCH_SIZE (batchesOf EMBED_BATCH_SIZE chunksTwo) = true ∧
    (batchesOf EMBED_BATCH_SIZE chunksTwo).flatten = chunksTwo ∧
    pointsTwo.map Point.vector = chunksTwo.map envTwoChunks.embedFn ∧
    pointsTwo.map Point.text = chunksTwo ∧
    allAtMost UPSERT_BATCH_SIZE (batchesOf UPSERT_BATCH_SIZE pointsTwo) = true ∧
    (batchesOf UPSERT_BATCH_SIZE pointsTwo).flatten = pointsTwo :=
  claim8_batching_structure envTwoChunks chunksTwo pointsTwo (by decide) (by decide)
    rfl (by decide) rfl rfl rfl
